import Mathlib

/-!
Verification of the AWS documentation-analyzer core: a shallow embedding of
the repository's pure logic (the programmatic CSV schema validator, the
CSV-block field extractor, the transcript scan of the five-stage pipeline
coordinator, and the multi-subject master-CSV aggregation), together with
theorems settling the specification claims about them.

The embedding follows the Python source: `validate_csv_format`,
`extract_csv_from_text` and the transcript handling of
`analyze_aws_service_security` in `aws_documentation_analyzer.py`, and the
master-CSV construction of `SecurityControlsExtractor.generate_compliance_report`
in `aws_doc_analyzer_example.py`.  Python library behaviour that the source
relies on (the `csv` module default dialect, `csv.DictReader` row dictionaries,
`str.strip`, `str.split`, `re.search` on the concrete patterns appearing in the
source) is modelled explicitly below.
-/

set_option maxRecDepth 10000

namespace AwsDoc

/-- The set of characters Python `str.strip()` removes and `\s` matches
(ASCII whitespace as used by the source's data). -/
def isSpacePy (c : Char) : Bool :=
  c = ' ' || c = '\t' || c = '\n' || c = '\r' || c = '\x0b' || c = '\x0c'

/-- Python `str.strip()` on a character list. -/
def pyStripChars (s : List Char) : List Char :=
  ((s.dropWhile isSpacePy).reverse.dropWhile isSpacePy).reverse

/-- Python `str.strip()`. -/
def pyStrip (s : String) : String :=
  String.mk (pyStripChars s.data)

/-- Substring containment on character lists: Python's `needle in haystack`. -/
def containsSub (pat : List Char) : List Char → Bool
  | [] => pat.isEmpty
  | c :: cs => pat.isPrefixOf (c :: cs) || containsSub pat cs

/-- Python `pat in s` for strings. -/
def pyIn (pat s : String) : Bool :=
  containsSub pat.data s.data

/-- Python `s.split(sep)` with `sep = "\n"`: split on every newline, keeping
empty pieces. -/
def splitNl : List Char → List (List Char)
  | [] => [[]]
  | c :: cs =>
    if c = '\n' then [] :: splitNl cs
    else
      match splitNl cs with
      | h :: t => (c :: h) :: t
      | [] => [[c]]

/-- Python `s.split("\n")`. -/
def pySplitNl (s : String) : List String :=
  (splitNl s.data).map String.mk

/-!
## The Python `csv` module reader, default dialect

`validate_csv_format` parses with `csv.DictReader(io.StringIO(csv_content))`,
i.e. the default dialect: delimiter `,`, quote character `"`, doubled quotes
inside quoted fields, non-strict mode.  The reader is modelled as a state
machine over the character stream.  A record ended by a lone `\r` is held
pending until the line terminator is seen; a non-newline character after it
raises `_csv.Error` (the "new-line character seen in unquoted field" error),
which loses the pending record, exactly as the line-based C reader does.
-/

/-- The `_csv.Error` message for stray characters after a carriage return. -/
def crlfErr : String :=
  "new-line character seen in unquoted field - do you need to open the file in universal-newline mode?"

/-- Parser mode of the `csv` reader state machine. -/
inductive CsvMode
  | startRecord
  | startField
  | inField
  | inQuoted
  | quoteInQuoted
  | eatCrnl (pending : List String)

/-- Run the `csv` reader over the whole character stream.  Arguments:
input, mode, current field (reversed), current record (reversed), committed
records (reversed).  Returns the committed records in order plus the error
raised, if any. -/
def csvRun : List Char → CsvMode → List Char → List String → List (List String) →
    List (List String) × Option String
  | [], .startRecord, _, _, recs => (recs.reverse, none)
  | [], .startField, _, rec, recs => ((("" :: rec).reverse :: recs).reverse, none)
  | [], .inField, fld, rec, recs =>
      (((String.mk fld.reverse :: rec).reverse :: recs).reverse, none)
  | [], .inQuoted, fld, rec, recs =>
      (((String.mk fld.reverse :: rec).reverse :: recs).reverse, none)
  | [], .quoteInQuoted, fld, rec, recs =>
      (((String.mk fld.reverse :: rec).reverse :: recs).reverse, none)
  | [], .eatCrnl pending, _, _, recs => ((pending :: recs).reverse, none)
  | c :: cs, .startRecord, fld, rec, recs =>
      if c = '\n' then csvRun cs .startRecord fld rec ([] :: recs)
      else if c = '\r' then csvRun cs (.eatCrnl []) [] [] recs
      else if c = '\"' then csvRun cs .inQuoted [] rec recs
      else if c = ',' then csvRun cs .startField [] ("" :: rec) recs
      else csvRun cs .inField [c] rec recs
  | c :: cs, .startField, _, rec, recs =>
      if c = '\"' then csvRun cs .inQuoted [] rec recs
      else if c = ',' then csvRun cs .startField [] ("" :: rec) recs
      else if c = '\n' then csvRun cs .startRecord [] [] ((("" :: rec).reverse) :: recs)
      else if c = '\r' then csvRun cs (.eatCrnl (("" :: rec).reverse)) [] [] recs
      else csvRun cs .inField [c] rec recs
  | c :: cs, .inField, fld, rec, recs =>
      if c = ',' then csvRun cs .startField [] (String.mk fld.reverse :: rec) recs
      else if c = '\n' then
        csvRun cs .startRecord [] [] (((String.mk fld.reverse :: rec).reverse) :: recs)
      else if c = '\r' then
        csvRun cs (.eatCrnl ((String.mk fld.reverse :: rec).reverse)) [] [] recs
      else csvRun cs .inField (c :: fld) rec recs
  | c :: cs, .inQuoted, fld, rec, recs =>
      if c = '\"' then csvRun cs .quoteInQuoted fld rec recs
      else csvRun cs .inQuoted (c :: fld) rec recs
  | c :: cs, .quoteInQuoted, fld, rec, recs =>
      if c = '\"' then csvRun cs .inQuoted ('\"' :: fld) rec recs
      else if c = ',' then csvRun cs .startField [] (String.mk fld.reverse :: rec) recs
      else if c = '\n' then
        csvRun cs .startRecord [] [] (((String.mk fld.reverse :: rec).reverse) :: recs)
      else if c = '\r' then
        csvRun cs (.eatCrnl ((String.mk fld.reverse :: rec).reverse)) [] [] recs
      else csvRun cs .inField (c :: fld) rec recs
  | c :: cs, .eatCrnl pending, fld, rec, recs =>
      if c = '\n' then csvRun cs .startRecord fld rec (pending :: recs)
      else if c = '\r' then csvRun cs (.eatCrnl pending) fld rec recs
      else (recs.reverse, some crlfErr)

/-- Parse a character stream with the `csv` module's default-dialect reader:
the records committed before any error, and the error raised, if any. -/
def pyCsvParse (s : List Char) : List (List String) × Option String :=
  csvRun s .startRecord [] [] []

/-!
## `csv.DictReader` row access

`DictReader` zips the header row with each data row; header names repeated in
the header keep their last value; names beyond the row's length receive the
rest value `None`; `row.get(name, "")` returns the default `""` only when the
name is not a header at all.  Calling `.strip()` on a `None` value raises
`AttributeError`, which `validate_csv_format` catches.
-/

/-- Index of the last occurrence of `name` in the header list. -/
def lastIdxOf (name : String) : List String → Option Nat
  | [] => none
  | h :: t =>
    match lastIdxOf name t with
    | some i => some (i + 1)
    | none => if h = name then some 0 else none

/-- `row.get(name, "")` for a `csv.DictReader` row: `some v` is the string the
subsequent `.strip()` call acts on; `none` models the `None` rest value whose
`.strip()` raises `AttributeError`. -/
def rowGet (headers fields : List String) (name : String) : Option String :=
  match lastIdxOf name headers with
  | none => some ""
  | some i => fields.get? i

/-- The `str(AttributeError)` text for `None.strip()`. -/
def attrErr : String := "\x27NoneType\x27 object has no attribute \x27strip\x27"

/-!
## `validate_csv_format`
-/

/-- The required column list of `validate_csv_format`. -/
def required_columns : List String :=
  ["controlId", "controlName", "severity", "policies", "awsConfig",
   "implementation", "relatedRequirements"]

/-- The allowed severity values. -/
def allowedSeverities : List String :=
  ["Critical", "High", "Medium", "Low"]

/-- The shared shape of the per-row issue strings: Python
`f"Row {row_num}: ..."`. -/
def rowMsg (n : Nat) (t : String) : String :=
  "Row " ++ toString n ++ t

/-- Issue text for an empty controlId. -/
def emptyControlIdMsg (n : Nat) : String :=
  rowMsg n ": Empty controlId"

/-- Issue text for an empty controlName. -/
def emptyControlNameMsg (n : Nat) : String :=
  rowMsg n ": Empty controlName"

/-- Issue text for a duplicate controlId. -/
def dupMsg (n : Nat) (cid : String) : String :=
  rowMsg n (": Duplicate controlId \x27" ++ cid ++ "\x27")

/-- Issue text for an invalid severity. -/
def sevMsg (n : Nat) (sev : String) : String :=
  rowMsg n (": Invalid severity \x27" ++ sev ++ "\x27. Must be Critical, High, Medium, or Low")

/-- The issue recorded by the `except` clause for exception `e`. -/
def parseErrMsg (e : String) : String := "CSV parsing error: " ++ e

/-- Missing required columns, in required-column order (the source computes a
Python set difference and joins it; the joined names are the same, the order
within the joined string is the set iteration order). -/
def missingColumns (headers : List String) : List String :=
  required_columns.filter (fun c => ¬ c ∈ headers)

/-- The missing-columns issue text. -/
def missingMsg (headers : List String) : String :=
  "Missing required columns: " ++ String.intercalate ", " (missingColumns headers)

/-- The validation report dictionary of `validate_csv_format`. -/
structure ValidationResults where
  is_valid : Bool
  issues : List String
  row_count : Nat
  column_count : Nat
  required : List String

/-- Mutable loop state of the row-validation loop: accumulated issues, the
`control_ids` seen set, the row count, and the validity flag. -/
structure RowState where
  issues : List String
  control_ids : List String
  row_count : Nat
  is_valid : Bool

/-- One iteration of the row loop of `validate_csv_format` (source lines
705-730): flag empty controlId and controlName, flag duplicate controlId
against the seen set, flag invalid severity.  Returns the updated state and
the `AttributeError` text when a required value is the `None` rest value. -/
def processRow (headers : List String) (n : Nat) (fields : List String)
    (st : RowState) : RowState × Option String :=
  let st := { st with row_count := st.row_count + 1 }
  match rowGet headers fields "controlId" with
  | none => (st, some attrErr)
  | some cid0 =>
    let st :=
      if pyStrip cid0 = "" then
        { st with is_valid := false, issues := st.issues ++ [emptyControlIdMsg n] }
      else st
    match rowGet headers fields "controlName" with
    | none => (st, some attrErr)
    | some cn =>
      let st :=
        if pyStrip cn = "" then
          { st with is_valid := false, issues := st.issues ++ [emptyControlNameMsg n] }
        else st
      let control_id := pyStrip cid0
      let st :=
        if control_id ∈ st.control_ids then
          { st with is_valid := false, issues := st.issues ++ [dupMsg n control_id] }
        else { st with control_ids := control_id :: st.control_ids }
      match rowGet headers fields "severity" with
      | none => (st, some attrErr)
      | some sv =>
        let s := pyStrip sv
        let st :=
          if s ≠ "" ∧ ¬ s ∈ allowedSeverities then
            { st with is_valid := false, issues := st.issues ++ [sevMsg n s] }
          else st
        (st, none)

/-- The row loop of `validate_csv_format`: process each data row in order;
stop at the first row whose processing raises. -/
def processRows (headers : List String) : List (List String) → Nat → RowState →
    RowState × Option String
  | [], _, st => (st, none)
  | r :: rs, n, st =>
    match processRow headers n r st with
    | (st1, some e) => (st1, some e)
    | (st1, none) => processRows headers rs (n + 1) st1

/-- The data rows `csv.DictReader` iterates over: blank (empty-list) records
are skipped. -/
def dataRowsOf (rows : List (List String)) : List (List String) :=
  rows.filter (fun r => ¬ r = [])

/-- The report returned on the `if not headers` early exit. -/
def noHeadersReport : ValidationResults :=
  { is_valid := false, issues := ["No headers found in CSV"], row_count := 0,
    column_count := 0, required := required_columns }

/-- The report state at the very start of `validate_csv_format`. -/
def initialReport : ValidationResults :=
  { is_valid := true, issues := [], row_count := 0, column_count := 0,
    required := required_columns }

/-- The body of `validate_csv_format` without its `try`/`except`: the report
built so far plus the exception that escapes, if any.  Headers are the first
parsed record; `csv.DictReader` iteration skips blank (empty-list) records. -/
def validateBody (s : String) : ValidationResults × Option String :=
  match pyCsvParse s.data with
  | ([], some e) => (initialReport, some e)
  | ([], none) => (noHeadersReport, none)
  | (headers :: rest, perr) =>
    if headers = [] then (noHeadersReport, none)
    else
      let missing := missingColumns headers
      let base : RowState :=
        { issues := if missing = [] then [] else [missingMsg headers],
          control_ids := [], row_count := 0, is_valid := missing = [] }
      match processRows headers (dataRowsOf rest) 2 base with
      | (st, rerr) =>
        ({ is_valid := st.is_valid, issues := st.issues, row_count := st.row_count,
           column_count := headers.length, required := required_columns },
         match rerr with
         | some e => some e
         | none => perr)

/-- `validate_csv_format(csv_content)`: run the body and convert any escaping
exception into a single `CSV parsing error` issue. -/
def validate_csv_format (s : String) : ValidationResults :=
  match validateBody s with
  | (r, none) => r
  | (r, some e) =>
    { r with is_valid := false, issues := r.issues ++ [parseErrMsg e] }

/-!
## Decimal representation facts

The per-row issue strings embed the row number through `toString`
(`Nat.repr`).  To count issue occurrences exactly, we show that the decimal
representation is injective and consists of digit characters, so messages
from different rows are distinct strings.
-/

/-- Numeric value of a decimal digit character. -/
def digitVal (c : Char) : Nat := c.toNat - 48

/-- Read a digit string back into a number, most significant digit first. -/
def parseDigits (a : Nat) (l : List Char) : Nat :=
  l.foldl (fun acc c => acc * 10 + digitVal c) a

theorem digitVal_digitChar : ∀ k, k < 10 → digitVal (Nat.digitChar k) = k := by decide

theorem digitChar_isDigit : ∀ k, k < 10 → (Nat.digitChar k).isDigit = true := by decide

theorem toDigitsCore_shift (fuel : Nat) : ∀ (n : Nat) (ds : List Char),
    Nat.toDigitsCore 10 fuel n ds = Nat.toDigitsCore 10 fuel n [] ++ ds := by
  induction fuel with
  | zero => intro n ds; simp [Nat.toDigitsCore]
  | succ fuel ih =>
    intro n ds
    simp only [Nat.toDigitsCore]
    by_cases h : n / 10 = 0
    · simp [h]
    · simp only [h, if_false]
      rw [ih (n / 10) (Nat.digitChar (n % 10) :: ds), ih (n / 10) [Nat.digitChar (n % 10)]]
      simp

theorem parseDigits_toDigitsCore : ∀ (fuel n a : Nat), n < 10 ^ fuel →
    parseDigits a (Nat.toDigitsCore 10 fuel n []) =
      a * 10 ^ (Nat.toDigitsCore 10 fuel n []).length + n := by
  intro fuel
  induction fuel with
  | zero =>
    intro n a h
    simp only [pow_zero, Nat.lt_one_iff] at h
    subst h
    simp [Nat.toDigitsCore, parseDigits]
  | succ fuel ih =>
    intro n a h
    simp only [Nat.toDigitsCore]
    by_cases h0 : n / 10 = 0
    · have hn : n < 10 := by omega
      simp only [h0, if_true, parseDigits, List.foldl, List.length]
      rw [digitVal_digitChar (n % 10) (Nat.mod_lt _ (by norm_num))]
      have : n % 10 = n := Nat.mod_eq_of_lt hn
      rw [this, pow_one]
    · have h10 : n / 10 < 10 ^ fuel := by
        apply (Nat.div_lt_iff_lt_mul (by norm_num : 0 < 10)).2
        calc n < 10 ^ (fuel + 1) := h
          _ = 10 ^ fuel * 10 := by rw [pow_succ]
      simp only [h0, if_false]
      rw [toDigitsCore_shift fuel (n / 10) [Nat.digitChar (n % 10)]]
      simp only [parseDigits, List.foldl_append, List.foldl, List.length_append,
        List.length, List.length_nil]
      have hrec := ih (n / 10) a h10
      simp only [parseDigits] at hrec
      rw [hrec, digitVal_digitChar (n % 10) (Nat.mod_lt _ (by norm_num))]
      have hmod : 10 * (n / 10) + n % 10 = n := Nat.div_add_mod n 10
      calc (a * 10 ^ (Nat.toDigitsCore 10 fuel (n / 10) []).length + n / 10) * 10 + n % 10
          = a * (10 ^ (Nat.toDigitsCore 10 fuel (n / 10) []).length * 10) +
              (10 * (n / 10) + n % 10) := by ring
        _ = a * 10 ^ ((Nat.toDigitsCore 10 fuel (n / 10) []).length + 1) + n := by
              rw [hmod, pow_succ]

theorem lt_ten_pow_succ (n : Nat) : n < 10 ^ (n + 1) := by
  calc n < 2 ^ n := Nat.lt_two_pow n
    _ ≤ 10 ^ n := Nat.pow_le_pow_left (by norm_num) n
    _ ≤ 10 ^ (n + 1) := Nat.pow_le_pow_right (by norm_num) (Nat.le_succ n)

theorem parseDigits_repr (n : Nat) : parseDigits 0 (Nat.toDigits 10 n) = n := by
  have h := parseDigits_toDigitsCore (n + 1) n 0 (lt_ten_pow_succ n)
  simpa [Nat.toDigits] using h

theorem natRepr_injective {m n : Nat} (h : Nat.repr m = Nat.repr n) : m = n := by
  have hd : Nat.toDigits 10 m = Nat.toDigits 10 n := by
    have := congrArg String.data h
    simpa [Nat.repr, List.asString] using this
  rw [← parseDigits_repr m, ← parseDigits_repr n, hd]

theorem toDigitsCore_digits (fuel : Nat) : ∀ (n : Nat) (ds : List Char),
    (∀ c ∈ ds, c.isDigit = true) →
    ∀ c ∈ Nat.toDigitsCore 10 fuel n ds, c.isDigit = true := by
  induction fuel with
  | zero => intro n ds hds; simpa [Nat.toDigitsCore] using hds
  | succ fuel ih =>
    intro n ds hds
    simp only [Nat.toDigitsCore]
    have hd : (Nat.digitChar (n % 10)).isDigit = true :=
      digitChar_isDigit (n % 10) (Nat.mod_lt _ (by norm_num))
    by_cases h : n / 10 = 0
    · simp only [h, if_true]
      intro c hc
      rcases List.mem_cons.1 hc with rfl | hmem
      · exact hd
      · exact hds c hmem
    · simp only [h, if_false]
      apply ih
      intro c hc
      rcases List.mem_cons.1 hc with rfl | hmem
      · exact hd
      · exact hds c hmem

theorem repr_data_digits (n : Nat) : ∀ c ∈ (Nat.repr n).data, c.isDigit = true := by
  intro c hc
  apply toDigitsCore_digits (n + 1) n [] (by simp)
  simpa [Nat.repr, List.asString] using hc

theorem toDigitsCore_ne_nil (fuel n : Nat) (ds : List Char) (h : 0 < fuel) :
    Nat.toDigitsCore 10 fuel n ds ≠ [] := by
  cases fuel with
  | zero => omega
  | succ fuel =>
    simp only [Nat.toDigitsCore]
    by_cases h0 : n / 10 = 0
    · simp [h0]
    · simp only [h0, if_false]
      rw [toDigitsCore_shift fuel (n / 10) (Nat.digitChar (n % 10) :: ds)]
      simp

theorem repr_data_ne_nil (n : Nat) : (Nat.repr n).data ≠ [] := by
  have := toDigitsCore_ne_nil (n + 1) n [] (Nat.succ_pos n)
  simpa [Nat.repr, List.asString] using this

/-- Splitting a concatenation of a digit run and a non-digit-headed tail is
unique. -/
theorem digit_run_split : ∀ (d1 t1 d2 t2 : List Char),
    (∀ c ∈ d1, c.isDigit = true) → (∀ c ∈ d2, c.isDigit = true) →
    (∀ c, t1.head? = some c → c.isDigit = false) →
    (∀ c, t2.head? = some c → c.isDigit = false) →
    d1 ++ t1 = d2 ++ t2 → d1 = d2 ∧ t1 = t2 := by
  intro d1
  induction d1 with
  | nil =>
    intro t1 d2 t2 _ h2 ht1 _ heq
    cases d2 with
    | nil => simpa using heq
    | cons c cs =>
      exfalso
      simp only [List.nil_append, List.cons_append] at heq
      have hhead : t1.head? = some c := by rw [heq]; rfl
      have hdig : c.isDigit = true := h2 c (by simp)
      have := ht1 c hhead
      simp [hdig] at this
  | cons c cs ih =>
    intro t1 d2 t2 h1 h2 ht1 ht2 heq
    cases d2 with
    | nil =>
      exfalso
      simp only [List.cons_append, List.nil_append] at heq
      have hhead : t2.head? = some c := by rw [← heq]; rfl
      have hdig : c.isDigit = true := h1 c (by simp)
      have := ht2 c hhead
      simp [hdig] at this
    | cons b bs =>
      simp only [List.cons_append, List.cons.injEq] at heq
      obtain ⟨rfl, heq⟩ := heq
      have := ih t1 bs t2 (fun x hx => h1 x (by simp [hx]))
        (fun x hx => h2 x (by simp [hx])) ht1 ht2 heq
      exact ⟨by rw [this.1], this.2⟩

theorem string_mk_data (s : String) : String.mk s.data = s := rfl

/-- Two per-row messages agree exactly when the row numbers and tails agree,
provided both tails start with a colon (as all four issue tails do). -/
theorem rowMsg_eq_iff {n m : Nat} {t1 t2 : String}
    (h1 : t1.data.head? = some ':') (h2 : t2.data.head? = some ':') :
    rowMsg n t1 = rowMsg m t2 ↔ n = m ∧ t1 = t2 := by
  constructor
  · intro h
    have hd := congrArg String.data h
    simp only [rowMsg, String.data_append, List.append_assoc] at hd
    have hd2 := List.append_cancel_left hd
    have hts : (toString n).data = (toString m).data ∧ t1.data = t2.data := by
      apply digit_run_split _ _ _ _ (repr_data_digits n) (repr_data_digits m)
      · intro c hc
        rw [h1] at hc
        cases hc
        decide
      · intro c hc
        rw [h2] at hc
        cases hc
        decide
      · exact hd2
    constructor
    · apply natRepr_injective
      rw [← string_mk_data (Nat.repr n), ← string_mk_data (Nat.repr m)]
      exact congrArg String.mk hts.1
    · rw [← string_mk_data t1, ← string_mk_data t2]
      exact congrArg String.mk hts.2
  · rintro ⟨rfl, rfl⟩
    rfl

/-- Lists extending incomparable prefixes are distinct. -/
theorem ne_of_incomparable_prefix (a b : String) (x y : List Char)
    (h : (a.data.isPrefixOf b.data || b.data.isPrefixOf a.data) = false) :
    a.data ++ x ≠ b.data ++ y := by
  intro heq
  have hpa : a.data <+: a.data ++ x := List.prefix_append _ _
  have hpb : b.data <+: a.data ++ x := heq ▸ List.prefix_append b.data y
  rcases List.prefix_or_prefix_of_prefix hpa hpb with hab | hba
  · rw [← List.isPrefixOf_iff_prefix] at hab
    simp [hab] at h
  · rw [← List.isPrefixOf_iff_prefix] at hba
    simp [hba] at h

theorem str_ne_of_incomparable {a b s t : String} (x y : List Char)
    (hs : s.data = a.data ++ x) (ht : t.data = b.data ++ y)
    (h : (a.data.isPrefixOf b.data || b.data.isPrefixOf a.data) = false) : s ≠ t := by
  intro heq
  apply ne_of_incomparable_prefix a b x y h
  rw [← hs, ← ht, heq]

theorem dupTail_head (v : String) :
    (": Duplicate controlId \x27" ++ v ++ "\x27").data.head? = some ':' := by
  simp [String.data_append]

theorem sevTail_head (v : String) :
    (": Invalid severity \x27" ++ v ++
      "\x27. Must be Critical, High, Medium, or Low").data.head? = some ':' := by
  simp [String.data_append]

theorem dupTail_data (v : String) :
    (": Duplicate controlId \x27" ++ v ++ "\x27").data =
      (": Duplicate controlId \x27").data ++ (v.data ++ [Char.ofNat 39]) := by
  simp [String.data_append]

theorem sevTail_data (v : String) :
    (": Invalid severity \x27" ++ v ++
        "\x27. Must be Critical, High, Medium, or Low").data =
      (": Invalid severity \x27").data ++
        (v.data ++ ("\x27. Must be Critical, High, Medium, or Low").data) := by
  simp [String.data_append]

/-- Duplicate-controlId issues are equal exactly when row number and id agree. -/
theorem dupMsg_eq_iff {n m : Nat} {v w : String} :
    dupMsg n v = dupMsg m w ↔ n = m ∧ v = w := by
  rw [dupMsg, dupMsg, rowMsg_eq_iff (dupTail_head v) (dupTail_head w)]
  constructor
  · rintro ⟨rfl, ht⟩
    refine ⟨rfl, ?_⟩
    have hd := congrArg String.data ht
    rw [dupTail_data, dupTail_data] at hd
    have h1 := List.append_cancel_left hd
    have h2 := List.append_cancel_right h1
    rw [← string_mk_data v, ← string_mk_data w]
    exact congrArg String.mk h2
  · rintro ⟨rfl, rfl⟩
    exact ⟨rfl, rfl⟩

theorem dupMsg_ne_emptyCid (n m : Nat) (v : String) :
    dupMsg n v ≠ emptyControlIdMsg m := by
  intro h
  rw [dupMsg, emptyControlIdMsg,
    rowMsg_eq_iff (dupTail_head v) (by decide)] at h
  exact str_ne_of_incomparable (a := ": Duplicate controlId \x27")
    (b := ": Empty controlId") (v.data ++ [Char.ofNat 39]) []
    (dupTail_data v) (by simp) (by decide) h.2

theorem dupMsg_ne_emptyCn (n m : Nat) (v : String) :
    dupMsg n v ≠ emptyControlNameMsg m := by
  intro h
  rw [dupMsg, emptyControlNameMsg,
    rowMsg_eq_iff (dupTail_head v) (by decide)] at h
  exact str_ne_of_incomparable (a := ": Duplicate controlId \x27")
    (b := ": Empty controlName") (v.data ++ [Char.ofNat 39]) []
    (dupTail_data v) (by simp) (by decide) h.2

theorem dupMsg_ne_sev (n m : Nat) (v w : String) :
    dupMsg n v ≠ sevMsg m w := by
  intro h
  rw [dupMsg, sevMsg,
    rowMsg_eq_iff (dupTail_head v) (sevTail_head w)] at h
  exact str_ne_of_incomparable (a := ": Duplicate controlId \x27")
    (b := ": Invalid severity \x27") (v.data ++ [Char.ofNat 39]) _
    (dupTail_data v) (sevTail_data w) (by decide) h.2

theorem rowMsg_data (n : Nat) (t : String) :
    (rowMsg n t).data = ("Row ").data ++ ((toString n).data ++ t.data) := by
  simp [rowMsg, String.data_append]

theorem dupMsg_ne_missing (n : Nat) (v : String) (headers : List String) :
    dupMsg n v ≠ missingMsg headers :=
  str_ne_of_incomparable (a := "Row ") (b := "Missing required columns: ") _
    (String.intercalate ", " (missingColumns headers)).data
    (rowMsg_data n _) (by simp [missingMsg, String.data_append]) (by decide)

theorem dupMsg_ne_noHeaders (n : Nat) (v : String) :
    dupMsg n v ≠ "No headers found in CSV" :=
  str_ne_of_incomparable (a := "Row ") (b := "No headers found in CSV") _ []
    (rowMsg_data n _) (by simp) (by decide)

theorem dupMsg_ne_parseErr (n : Nat) (v : String) (e : String) :
    dupMsg n v ≠ parseErrMsg e :=
  str_ne_of_incomparable (a := "Row ") (b := "CSV parsing error: ") _ e.data
    (rowMsg_data n _) (by simp [parseErrMsg, String.data_append]) (by decide)

/-!
## Decomposition of the row loop

`processRows` is characterised, on rows whose required values are present, by
a per-row issue chunk computed from the row and the seen-id set.
-/

/-- The stripped controlId value the loop works with. -/
def cidOf (headers r : List String) : String :=
  pyStrip ((rowGet headers r "controlId").getD "")

/-- The stripped controlName value the loop works with. -/
def cnOf (headers r : List String) : String :=
  pyStrip ((rowGet headers r "controlName").getD "")

/-- The stripped severity value the loop works with. -/
def svOf (headers r : List String) : String :=
  pyStrip ((rowGet headers r "severity").getD "")

/-- The row's three required lookups all yield strings (no `AttributeError`). -/
def rowOk (headers r : List String) : Prop :=
  (rowGet headers r "controlId").isSome ∧ (rowGet headers r "controlName").isSome ∧
    (rowGet headers r "severity").isSome

instance (headers r : List String) : Decidable (rowOk headers r) := by
  unfold rowOk
  infer_instance

/-- The issues row `r` (with 1-based display number `n`) adds, given the seen
controlId set. -/
def rowChunk (headers : List String) (n : Nat) (r : List String)
    (seen : List String) : List String :=
  (if cidOf headers r = "" then [emptyControlIdMsg n] else []) ++
  (if cnOf headers r = "" then [emptyControlNameMsg n] else []) ++
  (if cidOf headers r ∈ seen then [dupMsg n (cidOf headers r)] else []) ++
  (if svOf headers r ≠ "" ∧ ¬ svOf headers r ∈ allowedSeverities then
    [sevMsg n (svOf headers r)] else [])

/-- Seen-set update of one loop iteration. -/
def seenUpdate (headers r : List String) (seen : List String) : List String :=
  if cidOf headers r ∈ seen then seen else cidOf headers r :: seen

/-- The per-row issue chunks of a row list. -/
def chunks (headers : List String) : List (List String) → Nat → List String →
    List (List String)
  | [], _, _ => []
  | r :: rs, n, seen =>
    rowChunk headers n r seen :: chunks headers rs (n + 1) (seenUpdate headers r seen)

/-- The seen set after a row list. -/
def seenAfter (headers : List String) : List (List String) → List String → List String
  | [], seen => seen
  | r :: rs, seen => seenAfter headers rs (seenUpdate headers r seen)

theorem mem_seenUpdate {headers r : List String} {seen : List String} {x : String} :
    x ∈ seenUpdate headers r seen ↔ x ∈ seen ∨ x = cidOf headers r := by
  unfold seenUpdate
  split
  · constructor
    · exact fun h => Or.inl h
    · rintro (h | rfl)
      · exact h
      · assumption
  · simp [or_comm]

theorem mem_seenAfter {headers : List String} :
    ∀ (rows : List (List String)) (seen : List String) (x : String),
      x ∈ seenAfter headers rows seen ↔ x ∈ seen ∨ x ∈ rows.map (cidOf headers) := by
  intro rows
  induction rows with
  | nil => intro seen x; simp [seenAfter]
  | cons r rs ih =>
    intro seen x
    rw [seenAfter, ih, mem_seenUpdate]
    simp [or_assoc, or_comm, or_left_comm]

theorem processRow_ok {headers r : List String} (h : rowOk headers r)
    (n : Nat) (st : RowState) :
    processRow headers n r st =
      ({ issues := st.issues ++ rowChunk headers n r st.control_ids,
         control_ids := seenUpdate headers r st.control_ids,
         row_count := st.row_count + 1,
         is_valid := st.is_valid && (rowChunk headers n r st.control_ids).isEmpty },
       none) := by
  obtain ⟨h1, h2, h3⟩ := h
  obtain ⟨cid, hcid⟩ := Option.isSome_iff_exists.1 h1
  obtain ⟨cn, hcn⟩ := Option.isSome_iff_exists.1 h2
  obtain ⟨sv, hsv⟩ := Option.isSome_iff_exists.1 h3
  have ecid : cidOf headers r = pyStrip cid := by rw [cidOf, hcid]; rfl
  have ecn : cnOf headers r = pyStrip cn := by rw [cnOf, hcn]; rfl
  have esv : svOf headers r = pyStrip sv := by rw [svOf, hsv]; rfl
  simp only [processRow, hcid, hcn, hsv, rowChunk, seenUpdate, ecid, ecn, esv]
  split_ifs <;> simp_all [List.append_assoc]

theorem isEmpty_append {α : Type} (l m : List α) :
    (l ++ m).isEmpty = (l.isEmpty && m.isEmpty) := by
  cases l <;> simp [List.isEmpty]

theorem processRows_ok {headers : List String} :
    ∀ (rows : List (List String)) (n : Nat) (st : RowState),
      (∀ r ∈ rows, rowOk headers r) →
      processRows headers rows n st =
        ({ issues := st.issues ++ (chunks headers rows n st.control_ids).flatten,
           control_ids := seenAfter headers rows st.control_ids,
           row_count := st.row_count + rows.length,
           is_valid := st.is_valid &&
             (chunks headers rows n st.control_ids).flatten.isEmpty }, none) := by
  intro rows
  induction rows with
  | nil => intro n st _; simp [processRows, chunks, seenAfter]
  | cons r rs ih =>
    intro n st hall
    rw [processRows, processRow_ok (hall r (by simp)) n st]
    dsimp only
    rw [ih (n + 1) _ (fun x hx => hall x (by simp [hx]))]
    simp only [chunks, seenAfter, List.flatten_cons, List.length_cons, isEmpty_append,
      Prod.mk.injEq, RowState.mk.injEq]
    refine ⟨⟨?_, trivial, ?_, ?_⟩, trivial⟩
    · rw [List.append_assoc]
    · omega
    · rw [Bool.and_assoc]

theorem processRow_issues_pre (headers : List String) (n : Nat) (r : List String)
    (pre : List String) (st : RowState) :
    processRow headers n r { st with issues := pre ++ st.issues } =
      (({ (processRow headers n r st).1 with
          issues := pre ++ (processRow headers n r st).1.issues },
        (processRow headers n r st).2) : RowState × Option String) := by
  cases h1 : rowGet headers r "controlId" with
  | none => simp [processRow, h1]
  | some cid =>
    cases h2 : rowGet headers r "controlName" with
    | none =>
      simp only [processRow, h1, h2]
      split_ifs <;> simp [List.append_assoc]
    | some cn =>
      cases h3 : rowGet headers r "severity" with
      | none =>
        simp only [processRow, h1, h2, h3]
        split_ifs <;> simp [List.append_assoc]
      | some sv =>
        simp only [processRow, h1, h2, h3]
        split_ifs <;> simp [List.append_assoc]

theorem processRows_issues_pre (headers : List String) :
    ∀ (rows : List (List String)) (n : Nat) (pre : List String) (st : RowState),
      processRows headers rows n { st with issues := pre ++ st.issues } =
        (({ (processRows headers rows n st).1 with
            issues := pre ++ (processRows headers rows n st).1.issues },
          (processRows headers rows n st).2) : RowState × Option String) := by
  intro rows
  induction rows with
  | nil => intro n pre st; simp [processRows]
  | cons r rs ih =>
    intro n pre st
    rw [processRows, processRow_issues_pre headers n r pre st, processRows]
    cases hp : processRow headers n r st with
    | mk st1 e =>
      cases e with
      | none => simpa using ih (n + 1) pre st1
      | some err => simp

theorem processRow_false (headers : List String) (n : Nat) (r : List String)
    (st : RowState) (h : st.is_valid = false) :
    (processRow headers n r st).1.is_valid = false := by
  cases h1 : rowGet headers r "controlId" with
  | none => simp [processRow, h1, h]
  | some cid =>
    cases h2 : rowGet headers r "controlName" with
    | none =>
      simp only [processRow, h1, h2]
      split_ifs <;> simp [h]
    | some cn =>
      cases h3 : rowGet headers r "severity" with
      | none =>
        simp only [processRow, h1, h2, h3]
        split_ifs <;> simp [h]
      | some sv =>
        simp only [processRow, h1, h2, h3]
        split_ifs <;> simp [h]

theorem processRows_false (headers : List String) :
    ∀ (rows : List (List String)) (n : Nat) (st : RowState),
      st.is_valid = false → (processRows headers rows n st).1.is_valid = false := by
  intro rows
  induction rows with
  | nil => intro n st h; simpa [processRows] using h
  | cons r rs ih =>
    intro n st h
    rw [processRows]
    have hfalse := processRow_false headers n r st h
    cases hp : processRow headers n r st with
    | mk st1 e =>
      rw [hp] at hfalse
      cases e with
      | none => exact ih (n + 1) st1 hfalse
      | some err => exact hfalse

theorem not_isPrefixOf_append (p a : String) (x : List Char)
    (h : (p.data.isPrefixOf a.data || a.data.isPrefixOf p.data) = false) :
    p.data.isPrefixOf (a.data ++ x) = false := by
  by_contra hc
  rw [Bool.not_eq_false, List.isPrefixOf_iff_prefix] at hc
  have hpa : a.data <+: a.data ++ x := List.prefix_append _ _
  rcases List.prefix_or_prefix_of_prefix hc hpa with hab | hba
  · rw [← List.isPrefixOf_iff_prefix] at hab
    simp [hab] at h
  · rw [← List.isPrefixOf_iff_prefix] at hba
    simp [hba] at h

/-- Whether an issue string is the converted form of a caught exception. -/
def isParseErrIssue (m : String) : Bool :=
  ("CSV parsing error: ").data.isPrefixOf m.data

theorem rowMsg_not_parseErr (k : Nat) (t : String) :
    isParseErrIssue (rowMsg k t) = false := by
  unfold isParseErrIssue
  rw [show (rowMsg k t).data = ("Row ").data ++ ((toString k).data ++ t.data) from
    rowMsg_data k t]
  exact not_isPrefixOf_append _ _ _ (by decide)

theorem missing_not_parseErr (headers : List String) :
    isParseErrIssue (missingMsg headers) = false := by
  unfold isParseErrIssue
  rw [show (missingMsg headers).data = ("Missing required columns: ").data ++
    (String.intercalate ", " (missingColumns headers)).data by
      simp [missingMsg, String.data_append]]
  exact not_isPrefixOf_append _ _ _ (by decide)

theorem parseErr_is_parseErr (e : String) : isParseErrIssue (parseErrMsg e) = true := by
  unfold isParseErrIssue
  rw [show (parseErrMsg e).data = ("CSV parsing error: ").data ++ e.data by
    simp [parseErrMsg, String.data_append]]
  rw [List.isPrefixOf_iff_prefix]
  exact List.prefix_append _ _

theorem processRow_not_parseErr (headers : List String) (n : Nat) (r : List String)
    (st : RowState) (h : ∀ m ∈ st.issues, isParseErrIssue m = false) :
    ∀ m ∈ (processRow headers n r st).1.issues, isParseErrIssue m = false := by
  have e1 : isParseErrIssue (emptyControlIdMsg n) = false := rowMsg_not_parseErr n _
  have e2 : isParseErrIssue (emptyControlNameMsg n) = false := rowMsg_not_parseErr n _
  have e3 : ∀ v, isParseErrIssue (dupMsg n v) = false := fun v => rowMsg_not_parseErr n _
  have e4 : ∀ v, isParseErrIssue (sevMsg n v) = false := fun v => rowMsg_not_parseErr n _
  cases h1 : rowGet headers r "controlId" with
  | none => simpa [processRow, h1] using h
  | some cid =>
    cases h2 : rowGet headers r "controlName" with
    | none =>
      simp only [processRow, h1, h2]
      split_ifs <;> intro m hm <;>
        simp only [List.mem_append, List.mem_singleton, List.append_assoc] at hm <;>
        aesop
    | some cn =>
      cases h3 : rowGet headers r "severity" with
      | none =>
        simp only [processRow, h1, h2, h3]
        split_ifs <;> intro m hm <;>
          simp only [List.mem_append, List.mem_singleton, List.append_assoc] at hm <;>
          aesop
      | some sv =>
        simp only [processRow, h1, h2, h3]
        split_ifs <;> intro m hm <;>
          simp only [List.mem_append, List.mem_singleton, List.append_assoc] at hm <;>
          aesop

theorem processRows_not_parseErr (headers : List String) :
    ∀ (rows : List (List String)) (n : Nat) (st : RowState),
      (∀ m ∈ st.issues, isParseErrIssue m = false) →
      ∀ m ∈ (processRows headers rows n st).1.issues, isParseErrIssue m = false := by
  intro rows
  induction rows with
  | nil => intro n st h; simpa [processRows] using h
  | cons r rs ih =>
    intro n st h
    rw [processRows]
    have hstep := processRow_not_parseErr headers n r st h
    cases hp : processRow headers n r st with
    | mk st1 e =>
      rw [hp] at hstep
      cases e with
      | none => exact ih (n + 1) st1 hstep
      | some err => exact hstep

theorem chunk_count_dup_self (headers : List String) (n : Nat) (r : List String)
    (seen : List String) :
    (rowChunk headers n r seen).count (dupMsg n (cidOf headers r)) =
      if cidOf headers r ∈ seen then 1 else 0 := by
  unfold rowChunk
  have k1 := dupMsg_ne_emptyCid n n (cidOf headers r)
  have k2 := dupMsg_ne_emptyCn n n (cidOf headers r)
  have k3 := dupMsg_ne_sev n n (cidOf headers r) (svOf headers r)
  split_ifs <;>
    simp_all [List.count_append, List.count_cons, List.count_nil, beq_iff_eq]

theorem chunk_count_dup_other (headers : List String) (n m : Nat) (r : List String)
    (seen : List String) (v : String) (hnm : ¬ m = n) :
    (rowChunk headers n r seen).count (dupMsg m v) = 0 := by
  unfold rowChunk
  have k1 := dupMsg_ne_emptyCid m n v
  have k2 := dupMsg_ne_emptyCn m n v
  have k3 := dupMsg_ne_sev m n v (svOf headers r)
  have k4 : ¬ dupMsg m v = dupMsg n (cidOf headers r) := by
    intro h
    exact hnm (dupMsg_eq_iff.1 h).1
  split_ifs <;>
    simp_all [List.count_append, List.count_cons, List.count_nil, beq_iff_eq]

theorem chunks_count_dup_lt (headers : List String) :
    ∀ (rows : List (List String)) (m : Nat) (seen : List String) (k : Nat) (v : String),
      k < m → ((chunks headers rows m seen).flatten).count (dupMsg k v) = 0 := by
  intro rows
  induction rows with
  | nil => intro m seen k v _; simp [chunks]
  | cons r rs ih =>
    intro m seen k v hk
    rw [chunks, List.flatten_cons, List.count_append,
      chunk_count_dup_other headers m k r seen v (by omega),
      ih (m + 1) _ k v (by omega)]

theorem chunks_count_dup (headers : List String) :
    ∀ (rows : List (List String)) (n : Nat) (seen : List String) (j : Nat)
      (hj : j < rows.length),
      ((chunks headers rows n seen).flatten).count
          (dupMsg (n + j) (cidOf headers (rows.get ⟨j, hj⟩))) =
        if cidOf headers (rows.get ⟨j, hj⟩) ∈ seen ∨
            cidOf headers (rows.get ⟨j, hj⟩) ∈ (rows.take j).map (cidOf headers)
        then 1 else 0 := by
  intro rows
  induction rows with
  | nil => intro n seen j hj; simp at hj
  | cons r rs ih =>
    intro n seen j hj
    cases j with
    | zero =>
      rw [chunks, List.flatten_cons, List.count_append]
      simp only [Nat.add_zero, List.get]
      rw [chunk_count_dup_self headers n r seen,
        chunks_count_dup_lt headers rs (n + 1) _ n _ (by omega)]
      simp
    | succ k =>
      rw [chunks, List.flatten_cons, List.count_append]
      simp only [List.get]
      have hk : k < rs.length := by simpa using hj
      have hnum : n + (k + 1) = (n + 1) + k := by omega
      rw [hnum, chunk_count_dup_other headers n ((n + 1) + k) r seen _ (by omega),
        ih (n + 1) (seenUpdate headers r seen) k hk]
      have hcond : (cidOf headers (rs.get ⟨k, hk⟩) ∈ seenUpdate headers r seen ∨
          cidOf headers (rs.get ⟨k, hk⟩) ∈ (rs.take k).map (cidOf headers)) ↔
          (cidOf headers (rs.get ⟨k, hk⟩) ∈ seen ∨
           cidOf headers (rs.get ⟨k, hk⟩) ∈ ((r :: rs).take (k + 1)).map (cidOf headers)) := by
        rw [mem_seenUpdate]
        simp only [List.take_succ_cons, List.map_cons, List.mem_cons]
        tauto
      simp only [hcond]
      omega

theorem chunks_mem_emptyCid (headers : List String) :
    ∀ (rows : List (List String)) (n : Nat) (seen : List String) (j : Nat)
      (hj : j < rows.length),
      cidOf headers (rows.get ⟨j, hj⟩) = "" →
      emptyControlIdMsg (n + j) ∈ (chunks headers rows n seen).flatten := by
  intro rows
  induction rows with
  | nil => intro n seen j hj; simp at hj
  | cons r rs ih =>
    intro n seen j hj hcid
    cases j with
    | zero =>
      rw [chunks, List.flatten_cons]
      apply List.mem_append_left
      simp only [List.get] at hcid
      simp [rowChunk, hcid]
    | succ k =>
      rw [chunks, List.flatten_cons]
      apply List.mem_append_right
      have hk : k < rs.length := by simpa using hj
      have hnum : n + (k + 1) = (n + 1) + k := by omega
      rw [hnum]
      exact ih (n + 1) _ k hk hcid

theorem chunks_flatten_nil (headers : List String) :
    ∀ (rows : List (List String)) (n : Nat) (seen : List String),
      (∀ r ∈ rows, ¬ cidOf headers r = "" ∧ ¬ cnOf headers r = "" ∧
        svOf headers r ∈ allowedSeverities) →
      (rows.map (cidOf headers)).Nodup →
      (∀ r ∈ rows, ¬ cidOf headers r ∈ seen) →
      (chunks headers rows n seen).flatten = [] := by
  intro rows
  induction rows with
  | nil => intro n seen _ _ _; simp [chunks]
  | cons r rs ih =>
    intro n seen hall hnodup hseen
    rw [List.map_cons, List.nodup_cons] at hnodup
    obtain ⟨hcid, hcn, hsv⟩ := hall r (by simp)
    have hchunk : rowChunk headers n r seen = [] := by
      have : ¬ (svOf headers r ≠ "" ∧ ¬ svOf headers r ∈ allowedSeverities) := by
        intro h
        exact h.2 hsv
      simp [rowChunk, hcid, hcn, hseen r (by simp), this]
    rw [chunks, List.flatten_cons, hchunk, List.nil_append]
    apply ih (n + 1)
    · intro x hx
      exact hall x (by simp [hx])
    · exact hnodup.2
    · intro x hx
      rw [seenUpdate, if_neg (hseen r (by simp)), List.mem_cons]
      push_neg
      constructor
      · intro heq
        exact hnodup.1 (heq ▸ List.mem_map_of_mem (cidOf headers) hx)
      · exact hseen x (by simp [hx])

/-- Normal form of `validate_csv_format` on input parsing to a non-empty
header and rows whose required values are present, with no reader error. -/
theorem validate_eq_clean (s : String) (headers : List String)
    (rows : List (List String))
    (hparse : pyCsvParse s.data = (headers :: rows, none)) (hne : ¬ headers = [])
    (hall : ∀ r ∈ dataRowsOf rows, rowOk headers r) :
    validate_csv_format s =
      { is_valid := decide (missingColumns headers = []) &&
          (chunks headers (dataRowsOf rows) 2 []).flatten.isEmpty,
        issues := (if missingColumns headers = [] then [] else [missingMsg headers]) ++
          (chunks headers (dataRowsOf rows) 2 []).flatten,
        row_count := (dataRowsOf rows).length,
        column_count := headers.length,
        required := required_columns } := by
  unfold validate_csv_format validateBody
  rw [hparse]
  simp only [if_neg hne]
  rw [processRows_ok _ 2 _ hall]
  simp

/-!
## Claims about `validate_csv_format`
-/

/-- C3: for CSV text parsing to a header row containing all 7 required
columns and data rows with present, non-empty controlId and controlName,
pairwise-distinct controlIds and severities from the allowed set,
`validate_csv_format` returns a valid report with no issues. -/
theorem claim_C3 (s : String) (headers : List String) (rows : List (List String))
    (hparse : pyCsvParse s.data = (headers :: rows, none))
    (hreq : ∀ c ∈ required_columns, c ∈ headers)
    (hok : ∀ r ∈ dataRowsOf rows, rowOk headers r)
    (hvals : ∀ r ∈ dataRowsOf rows,
      ¬ cidOf headers r = "" ∧ ¬ cnOf headers r = "" ∧ svOf headers r ∈ allowedSeverities)
    (hnodup : ((dataRowsOf rows).map (cidOf headers)).Nodup) :
    (validate_csv_format s).is_valid = true ∧ (validate_csv_format s).issues = [] := by
  have hne : ¬ headers = [] := by
    intro h
    have := hreq "controlId" (by simp [required_columns])
    simp [h] at this
  have hmiss : missingColumns headers = [] := by
    rw [missingColumns, List.filter_eq_nil]
    intro c hc
    simp [hreq c hc]
  have hflat := chunks_flatten_nil headers (dataRowsOf rows) 2 []
    hvals hnodup (by intro r _; simp)
  rw [validate_eq_clean s headers rows hparse hne hok]
  simp [hmiss, hflat]

/-- C4: in a validated CSV, the report carries exactly one duplicate-controlId
issue for each repeated occurrence of a controlId, and none for the first
occurrence of each id. -/
theorem claim_C4 (s : String) (headers : List String) (rows : List (List String))
    (hparse : pyCsvParse s.data = (headers :: rows, none))
    (hne : ¬ headers = [])
    (hok : ∀ r ∈ dataRowsOf rows, rowOk headers r)
    (j : Nat) (hj : j < (dataRowsOf rows).length) :
    (validate_csv_format s).issues.count
        (dupMsg (j + 2) (cidOf headers ((dataRowsOf rows).get ⟨j, hj⟩))) =
      if cidOf headers ((dataRowsOf rows).get ⟨j, hj⟩) ∈
          ((dataRowsOf rows).take j).map (cidOf headers)
      then 1 else 0 := by
  rw [validate_eq_clean s headers rows hparse hne hok]
  simp only [List.count_append]
  have hhdr : (if missingColumns headers = [] then [] else [missingMsg headers]).count
      (dupMsg (j + 2) (cidOf headers ((dataRowsOf rows).get ⟨j, hj⟩))) = 0 := by
    split_ifs
    · rfl
    · rw [List.count_eq_zero]
      intro hmem
      rcases List.mem_singleton.1 hmem with h
      exact dupMsg_ne_missing (j + 2) _ headers h
  rw [hhdr]
  have hmain := chunks_count_dup headers (dataRowsOf rows) 2 [] j hj
  rw [Nat.add_comm 2 j] at hmain
  rw [Nat.zero_add, hmain]
  simp

/-- C9: a data row whose controlId strips to the empty string is flagged with
an empty-controlId issue, and when an earlier row also had an empty
controlId the row is additionally flagged as a duplicate of the empty id. -/
theorem claim_C9 (s : String) (headers : List String) (rows : List (List String))
    (hparse : pyCsvParse s.data = (headers :: rows, none))
    (hne : ¬ headers = [])
    (hok : ∀ r ∈ dataRowsOf rows, rowOk headers r)
    (j : Nat) (hj : j < (dataRowsOf rows).length)
    (hempty : cidOf headers ((dataRowsOf rows).get ⟨j, hj⟩) = "") :
    emptyControlIdMsg (j + 2) ∈ (validate_csv_format s).issues ∧
      ("" ∈ ((dataRowsOf rows).take j).map (cidOf headers) →
        dupMsg (j + 2) "" ∈ (validate_csv_format s).issues) := by
  rw [validate_eq_clean s headers rows hparse hne hok]
  constructor
  · apply List.mem_append_right
    have := chunks_mem_emptyCid headers (dataRowsOf rows) 2 [] j hj hempty
    rwa [Nat.add_comm 2 j] at this
  · intro hprev
    apply List.mem_append_right
    have hmain := chunks_count_dup headers (dataRowsOf rows) 2 [] j hj
    rw [Nat.add_comm 2 j, hempty] at hmain
    have hcnt : ((chunks headers (dataRowsOf rows) 2 []).flatten).count
        (dupMsg (j + 2) "") = 1 := by
      rw [hmain, if_pos]
      right
      exact hprev
    have hpos : 0 < ((chunks headers (dataRowsOf rows) 2 []).flatten).count
        (dupMsg (j + 2) "") := by
      rw [hcnt]
      exact Nat.zero_lt_one
    exact List.count_pos_iff_mem.1 hpos

/-- C5: when the header row lacks the severity column the report is invalid,
carries the missing-columns issue naming severity first, and still carries
all row-level issues (and any converted exception) after it. -/
theorem claim_C5 (s : String) (headers : List String) (rows : List (List String))
    (perr : Option String)
    (hparse : pyCsvParse s.data = (headers :: rows, perr))
    (hne : ¬ headers = [])
    (hsev : ¬ "severity" ∈ headers) :
    (validate_csv_format s).is_valid = false ∧
    "severity" ∈ missingColumns headers ∧
    (validate_csv_format s).issues =
      missingMsg headers ::
        ((processRows headers (dataRowsOf rows) 2
            { issues := [], control_ids := [], row_count := 0, is_valid := false }).1.issues ++
          (match (processRows headers (dataRowsOf rows) 2
              { issues := [], control_ids := [], row_count := 0, is_valid := false }).2 with
            | some e => [parseErrMsg e]
            | none =>
              match perr with
              | some e => [parseErrMsg e]
              | none => [])) := by
  have hmem : "severity" ∈ missingColumns headers := by
    simp [missingColumns, required_columns, hsev]
  have hmiss : ¬ missingColumns headers = [] := by
    intro h
    rw [h] at hmem
    simp at hmem
  have hbase : RowState.mk
      (if missingColumns headers = [] then [] else [missingMsg headers]) [] 0
      (decide (missingColumns headers = [])) =
      RowState.mk ([missingMsg headers] ++ []) [] 0 false := by
    simp [if_neg hmiss, hmiss]
  simp only [validate_csv_format, validateBody, hparse, if_neg hne]
  rw [hbase, processRows_issues_pre headers (dataRowsOf rows) 2
    [missingMsg headers] { issues := [], control_ids := [], row_count := 0, is_valid := false }]
  have hvalid : (processRows headers (dataRowsOf rows) 2
      { issues := [], control_ids := [], row_count := 0, is_valid := false }).1.is_valid
        = false :=
    processRows_false headers _ 2 _ rfl
  cases hrun : processRows headers (dataRowsOf rows) 2
      { issues := [], control_ids := [], row_count := 0, is_valid := false } with
  | mk st rerr =>
    rw [hrun] at hvalid
    dsimp only at hvalid
    cases rerr with
    | none =>
      cases perr with
      | none => simp [hvalid, hmem]
      | some e => simp [hvalid, hmem]
    | some e => simp [hvalid, hmem]

/-- C6: on every input the validator returns a report; the report carries
exactly one converted `CSV parsing error` issue when the body raised, and
none otherwise, and a raised body always yields an invalid report. -/
theorem claim_C6 (s : String) :
    ((validate_csv_format s).issues.countP isParseErrIssue =
      if (validateBody s).2.isSome then 1 else 0) ∧
    ((validateBody s).2.isSome = true → (validate_csv_format s).is_valid = false) := by
  have hbody : ∀ m ∈ (validateBody s).1.issues, isParseErrIssue m = false := by
    unfold validateBody
    cases hp : pyCsvParse s.data with
    | mk recs perr =>
      cases recs with
      | nil =>
        cases perr with
        | none =>
          intro m hm
          simp only [noHeadersReport] at hm
          rcases List.mem_singleton.1 hm with rfl
          decide
        | some e => intro m hm; simp [initialReport] at hm
      | cons headers rest =>
        dsimp only
        by_cases hne : headers = []
        · rw [if_pos hne]
          intro m hm
          simp only [noHeadersReport] at hm
          rcases List.mem_singleton.1 hm with rfl
          decide
        · rw [if_neg hne]
          cases hrun : processRows headers (dataRowsOf rest) 2
              { issues := if missingColumns headers = [] then []
                  else [missingMsg headers],
                control_ids := [], row_count := 0,
                is_valid := decide (missingColumns headers = []) } with
          | mk st rerr =>
            intro m hm
            simp only at hm
            have hall := processRows_not_parseErr headers (dataRowsOf rest) 2
              { issues := if missingColumns headers = [] then []
                  else [missingMsg headers],
                control_ids := [], row_count := 0,
                is_valid := decide (missingColumns headers = []) }
              (by
                intro y hy
                dsimp only at hy
                split at hy
                · simp at hy
                · rcases List.mem_singleton.1 hy with rfl
                  exact missing_not_parseErr headers)
            rw [hrun] at hall
            exact hall m hm
  unfold validate_csv_format
  cases hb : validateBody s with
  | mk r e =>
    rw [hb] at hbody
    dsimp only at hbody
    cases e with
    | none =>
      have h0 : r.issues.countP isParseErrIssue = 0 :=
        List.countP_eq_zero.2 (fun m hm => by simp [hbody m hm])
      refine ⟨by simp [h0], ?_⟩
      intro h
      simp at h
    | some err =>
      refine ⟨?_, fun _ => rfl⟩
      have h0 : r.issues.countP isParseErrIssue = 0 :=
        List.countP_eq_zero.2 (fun m hm => by simp [hbody m hm])
      simp only [List.countP_append, h0, Option.isSome_some, if_pos rfl]
      simp [parseErr_is_parseErr]

/-- The valid header line used by concrete validation examples. -/
def validHeaderLine : String :=
  "controlId,controlName,severity,policies,awsConfig,implementation,relatedRequirements"

/-- A fully valid one-row CSV. -/
def wCsvC3 : String :=
  validHeaderLine ++
    "\nAWS-S3-001,Bucket Encryption,High,DataProtection,EnableEncryption,ConfigureDefault,GDPR"

theorem claim_C3_witness :
    (validate_csv_format wCsvC3).is_valid = true ∧
      (validate_csv_format wCsvC3).issues = [] :=
  claim_C3 wCsvC3
    ["controlId", "controlName", "severity", "policies", "awsConfig",
     "implementation", "relatedRequirements"]
    [["AWS-S3-001", "Bucket Encryption", "High", "DataProtection",
      "EnableEncryption", "ConfigureDefault", "GDPR"]]
    (by decide) (by decide) (by decide) (by decide) (by decide)

/-- A CSV whose two data rows share a controlId. -/
def wCsvC4 : String :=
  validHeaderLine ++ "\nA-1,Name,High,p,c,i,r\nA-1,Name,High,p,c,i,r"

theorem claim_C4_witness :
    (validate_csv_format wCsvC4).issues.count (dupMsg 3 "A-1") = 1 := by
  have h := claim_C4 wCsvC4
    ["controlId", "controlName", "severity", "policies", "awsConfig",
     "implementation", "relatedRequirements"]
    [["A-1", "Name", "High", "p", "c", "i", "r"],
     ["A-1", "Name", "High", "p", "c", "i", "r"]]
    (by decide) (by decide) (by decide) 1 (by decide)
  exact h.trans (by decide)

/-- A CSV whose two data rows both have whitespace-only controlIds. -/
def wCsvC9 : String :=
  validHeaderLine ++ "\n,Name,High,p,c,i,r\n ,Name2,High,p,c,i,r"

theorem claim_C9_witness :
    emptyControlIdMsg 3 ∈ (validate_csv_format wCsvC9).issues ∧
      dupMsg 3 "" ∈ (validate_csv_format wCsvC9).issues := by
  have h := claim_C9 wCsvC9
    ["controlId", "controlName", "severity", "policies", "awsConfig",
     "implementation", "relatedRequirements"]
    [["", "Name", "High", "p", "c", "i", "r"],
     [" ", "Name2", "High", "p", "c", "i", "r"]]
    (by decide) (by decide) (by decide) 1 (by decide) (by decide)
  exact ⟨h.1, h.2 (by decide)⟩

/-- A CSV whose header lacks the severity column and whose data row has an
empty controlName. -/
def wCsvC5 : String :=
  "controlId,controlName,policies,awsConfig,implementation,relatedRequirements\nA-1,,p,c,i,r"

theorem claim_C5_witness :
    (validate_csv_format wCsvC5).is_valid = false ∧
      "severity" ∈ missingColumns
        ["controlId", "controlName", "policies", "awsConfig", "implementation",
         "relatedRequirements"] := by
  have h := claim_C5 wCsvC5
    ["controlId", "controlName", "policies", "awsConfig", "implementation",
     "relatedRequirements"]
    [["A-1", "", "p", "c", "i", "r"]] none (by decide) (by decide) (by decide)
  exact ⟨h.1, h.2.1⟩

/-- A CSV whose data row is shorter than the header, raising the
`AttributeError` that the validator converts into a single issue. -/
def wCsvC6 : String := validHeaderLine ++ "\nA-1"

theorem claim_C6_witness :
    (validate_csv_format wCsvC6).issues.countP isParseErrIssue = 1 ∧
      (validate_csv_format wCsvC6).is_valid = false := by
  have h := claim_C6 wCsvC6
  exact ⟨h.1.trans (by decide), h.2 (by decide)⟩

/-!
## `extract_csv_from_text`

The source tries four `re.search` patterns in order (DOTALL and IGNORECASE):
a ```` ```csv ````-tagged fenced block, any fenced block, a `CSV Output`
label, and a `Final Validated CSV` label with a ```` ```csv ```` block; the
first whose stripped capture contains a comma and a newline is returned,
otherwise the empty string.  Each pattern is modelled by a search function
matching the regex engine's leftmost-match and greedy/lazy backtracking
behaviour on the concrete pattern.
-/

/-- The fence delimiter of a markdown code block. -/
def fence : List Char := "```".data

/-- Leading count of characters satisfying `p`. -/
def leadCount (p : Char → Bool) : List Char → Nat
  | [] => 0
  | c :: cs => if p c then leadCount p cs + 1 else 0

/-- First index at which `pat` occurs as a prefix of a suffix of the list. -/
def findPrefixIdx (pat : List Char) : List Char → Option Nat
  | [] => if pat.isEmpty then some 0 else none
  | c :: cs =>
    if pat.isPrefixOf (c :: cs) then some 0
    else (findPrefixIdx pat cs).map (· + 1)

/-- Try a matcher at every start position, leftmost first (`re.search`). -/
def scanSuffixes (f : List Char → Option (List Char)) : List Char → Option (List Char)
  | [] => f []
  | c :: cs =>
    match f (c :: cs) with
    | some r => some r
    | none => scanSuffixes f cs

/-- Case-insensitive prefix test (`re.IGNORECASE` on ASCII literals). -/
def isPrefixCI (pat s : List Char) : Bool :=
  (pat.map Char.toLower).isPrefixOf (s.map Char.toLower)

/-- The capture of `\\s*(.+?)` followed by a closing fence, starting right
after an opening fence tag: the greedy whitespace run is consumed first, then
the shortest non-empty capture up to a closing fence; when the only closing
fence starts immediately after the whitespace, the engine backtracks one
whitespace character into the capture. -/
def fencedTail (rest : List Char) : Option (List Char) :=
  let w := leadCount isSpacePy rest
  let after := rest.drop w
  match findPrefixIdx fence (after.drop 1) with
  | some q => some (after.take (q + 1))
  | none =>
    if 0 < w ∧ fence.isPrefixOf after then some ((rest.drop (w - 1)).take 1)
    else none

/-- One-position matcher for ``` ```csv\\s*(.+?)``` ``` (`tag = "csv"`) and
``` ```\\s*(.+?)``` ``` (`tag = ""`). -/
def matchFencedAt (tag : List Char) (s : List Char) : Option (List Char) :=
  if isPrefixCI (fence ++ tag) s then fencedTail (s.drop (3 + tag.length))
  else none

/-- `re.search` for a fenced block with the given tag. -/
def reFenced (tag : List Char) (s : List Char) : Option (List Char) :=
  scanSuffixes (matchFencedAt tag) s

/-- The character class `[:\\s]`. -/
def isColonSpace (c : Char) : Bool := c = ':' || isSpacePy c

/-- Position of the earliest point where the lookahead `(?=\\n##|\\n\\*|\\Z)`
holds (the end of the list always satisfies `\\Z`). -/
def lookaheadIdx : List Char → Nat
  | [] => 0
  | c :: cs =>
    if ("\n##").data.isPrefixOf (c :: cs) || ("\n*").data.isPrefixOf (c :: cs) then 0
    else lookaheadIdx cs + 1

/-- One-position matcher for `CSV Output[:\\s]*(.+?)(?=\\n##|\\n\\*|\\Z)`. -/
def matchCsvOutputAt (s : List Char) : Option (List Char) :=
  if isPrefixCI ("CSV Output").data s then
    let rest := s.drop 10
    let w := leadCount isColonSpace rest
    let after := rest.drop w
    match after with
    | [] => if 0 < w then some ((rest.drop (w - 1)).take 1) else none
    | _ :: tail => some (after.take (1 + lookaheadIdx tail))
  else none

/-- `re.search` for the `CSV Output` pattern. -/
def reCsvOutput (s : List Char) : Option (List Char) :=
  scanSuffixes matchCsvOutputAt s

/-- One-position matcher for
`Final Validated CSV[:\\s]*` ``` ```csv\\s*(.+?)``` ```: the greedy class run
cannot backtrack into a fence, so the fence must start at its end. -/
def matchFinalAt (s : List Char) : Option (List Char) :=
  if isPrefixCI ("Final Validated CSV").data s then
    let rest := s.drop 19
    let w := leadCount isColonSpace rest
    let after := rest.drop w
    if isPrefixCI (fence ++ ("csv").data) after then fencedTail (after.drop 6)
    else none
  else none

/-- `re.search` for the `Final Validated CSV` pattern. -/
def reFinal (s : List Char) : Option (List Char) :=
  scanSuffixes matchFinalAt s

/-- The `csv_patterns` list of the source, in order. -/
def csv_patterns : List (List Char → Option (List Char)) :=
  [reFenced ("csv").data, reFenced [], reCsvOutput, reFinal]

/-- The pattern loop of `extract_csv_from_text`: search with each pattern in
order; on a match whose stripped content contains a comma and a newline,
return it, otherwise fall through to the next pattern. -/
def patternLoop (t : List Char) : List (List Char → Option (List Char)) → String
  | [] => ""
  | p :: ps =>
    match p t with
    | some m =>
      let c := pyStripChars m
      if containsSub (",").data c && containsSub ("\n").data c then String.mk c
      else patternLoop t ps
    | none => patternLoop t ps

/-- `extract_csv_from_text(text)`. -/
def extract_csv_from_text (text : String) : String :=
  patternLoop text.data csv_patterns

/-- Modelled from the claim wording: the candidate captures of the four
patterns in priority order; the result is the first stripped candidate that
contains both a comma and a line break, and the empty string when no
candidate satisfies the criterion. -/
def extractCsvSpec (text : String) : String :=
  let cands := (csv_patterns.filterMap (fun p => p text.data)).map pyStripChars
  match cands.find? (fun c => containsSub (",").data c && containsSub ("\n").data c) with
  | some c => String.mk c
  | none => ""

theorem patternLoop_eq_spec (t : List Char) :
    ∀ ps : List (List Char → Option (List Char)),
      patternLoop t ps =
        (match ((ps.filterMap (fun p => p t)).map pyStripChars).find?
            (fun c => containsSub (",").data c && containsSub ("\n").data c) with
          | some c => String.mk c
          | none => "") := by
  intro ps
  induction ps with
  | nil => simp [patternLoop]
  | cons p ps ih =>
    rw [patternLoop]
    cases hp : p t with
    | none => simpa [List.filterMap_cons, hp] using ih
    | some m =>
      simp only [List.filterMap_cons, hp, List.map_cons, List.find?]
      by_cases hc : (containsSub (",").data (pyStripChars m) &&
          containsSub ("\n").data (pyStripChars m)) = true
      · simp [hc]
      · rw [Bool.not_eq_true] at hc
        simpa [hc] using ih

/-- C8: `extract_csv_from_text` tries the four candidate patterns in the
fixed priority order and returns the first candidate whose content contains
both a comma and a line break; with no such candidate it returns the empty
string. -/
theorem claim_C8 (text : String) : extract_csv_from_text text = extractCsvSpec text := by
  unfold extract_csv_from_text extractCsvSpec
  exact patternLoop_eq_spec text.data csv_patterns

/-!
## `analyze_aws_service_security`

The conversation is driven by `RoundRobinGroupChat` over the five agents with
`MaxMessageTermination(10)`.  Modelled from the library's documented
semantics: speakers cycle in participant order, and the termination condition
counts every message of the conversation, including the initial task message,
stopping as soon as the total reaches the budget.  The text each agent turn
produces comes from the external reasoning service and is abstracted as an
oracle from the turn index to the produced content.
-/

/-- One conversation message: originating speaker label and text. -/
structure Msg where
  source : String
  content : String

/-- The five agent names, in round-robin participant order. -/
def agent_names : List String :=
  ["DocumentSearchAgent", "URLSelectorAgent", "DocumentReaderAgent",
   "SecurityControlsProcessor", "CSVValidator"]

/-- Agent turns of the round-robin loop: while the running message count is
below the budget, the next speaker in cyclic order emits one message.  The
fuel argument only bounds the recursion; `budget` steps always suffice. -/
def chatTurns (budget : Nat) (ps : List String) (contentOf : Nat → String) :
    Nat → Nat → Nat → List Msg
  | 0, _, _ => []
  | fuel + 1, count, idx =>
    if budget ≤ count then []
    else { source := ps.getD (idx % ps.length) "", content := contentOf idx } ::
      chatTurns budget ps contentOf fuel (count + 1) (idx + 1)

/-- A `team.run(task)` transcript: the task message followed by agent turns,
terminated purely by the message-count budget. -/
def teamRun (budget : Nat) (ps : List String) (task : Msg)
    (contentOf : Nat → String) : List Msg :=
  task :: chatTurns budget ps contentOf budget 1 0

/-- The effective search query: the caller's, unless it is `None` or falsy
(the empty string), in which case the deterministic template. -/
def effectiveQuery (aws_service : String) (search_query : Option String) : String :=
  match search_query with
  | none => aws_service ++ " security controls best practices compliance"
  | some s =>
    if s = "" then aws_service ++ " security controls best practices compliance"
    else s

/-- The initial task payload handed to the team. -/
def initial_task (aws_service search_query : String) : String :=
  "\n        Team Task: Analyze AWS " ++ aws_service ++
  " security controls and generate structured CSV output.\n\n        AWS SERVICE: " ++
  aws_service ++
  "\n        SEARCH FOCUS: Security controls, best practices, and compliance requirements\n\n        COMPLETE WORKFLOW:\n        1. DocumentSearchAgent: Search AWS documentation for " ++
  aws_service ++
  " security information\n        2. URLSelectorAgent: Select the most relevant URL from search results  \n        3. DocumentReaderAgent: Read selected documentation and extract security controls\n        4. SecurityControlsProcessor: Structure the controls into CSV format with required fields\n        5. CSVValidator: Validate the CSV format and data quality\n\n        FINAL OUTPUT REQUIRED:\n        - Validated CSV with columns: controlId, controlName, severity, policies, awsConfig, implementation, relatedRequirements\n\n        DocumentSearchAgent: Start by searching for \"" ++
  search_query ++ "\" using the search_documentation tool.\n        "

/-- The transcript of one `analyze_aws_service_security` run. -/
def analyzeMsgs (aws_service : String) (search_query : Option String)
    (contentOf : Nat → String) : List Msg :=
  teamRun 10 agent_names
    { source := "user",
      content := initial_task aws_service (effectiveQuery aws_service search_query) }
    contentOf

/-- The per-stage outputs collected by the transcript scan. -/
structure StageOutputs where
  search_results : String
  selected_url : String
  security_controls : String
  processed_controls : String
  validation_report : String

/-- One iteration of the transcript scan (source lines 407-423): attribute
the message to its stage by speaker label and keep its content when the
stage's required section header occurs in it. -/
def updateOutputs (acc : StageOutputs) (m : Msg) : StageOutputs :=
  if m.source = "DocumentSearchAgent" then
    (if pyIn "DOCUMENTATION SEARCH RESULTS" m.content then
      { acc with search_results := m.content } else acc)
  else if m.source = "URLSelectorAgent" then
    (if pyIn "URL SELECTION ANALYSIS" m.content then
      { acc with selected_url := m.content } else acc)
  else if m.source = "DocumentReaderAgent" then
    (if pyIn "AWS SECURITY CONTROLS ANALYSIS" m.content then
      { acc with security_controls := m.content } else acc)
  else if m.source = "SecurityControlsProcessor" then
    (if pyIn "STRUCTURED SECURITY CONTROLS" m.content then
      { acc with processed_controls := m.content } else acc)
  else if m.source = "CSVValidator" then
    (if pyIn "CSV VALIDATION REPORT" m.content then
      { acc with validation_report := m.content } else acc)
  else acc

/-- The full transcript scan. -/
def collectOutputs (msgs : List Msg) : StageOutputs :=
  msgs.foldl updateOutputs (StageOutputs.mk "" "" "" "" "")

/-- One-position matcher for `\\*\\*URL:\\*\\*\\s*(.+)` (no DOTALL: the greedy
capture stops at a newline and needs at least one character; the whitespace
run backtracks to its last non-newline character when nothing follows). -/
def matchUrlAt (s : List Char) : Option (List Char) :=
  if ("**URL:**").data.isPrefixOf s then
    let rest := s.drop 8
    let w := leadCount isSpacePy rest
    let after := rest.drop w
    match after with
    | _ :: _ => some (after.takeWhile (fun c => ¬ c = '\n'))
    | [] =>
      let k := leadCount (fun c => c = '\n') (rest.take w).reverse
      if k = w then none
      else some (((rest.drop (w - k - 1)).takeWhile (fun c => ¬ c = '\n')))
  else none

/-- `re.search` for the URL pattern. -/
def reUrl (s : List Char) : Option (List Char) :=
  scanSuffixes matchUrlAt s

/-- One-position matcher for
`## Final Validated CSV\\s*` ``` ```csv\\s*(.+?)``` ``` (case-sensitive,
DOTALL). -/
def matchFinalValidatedAt (s : List Char) : Option (List Char) :=
  if ("## Final Validated CSV").data.isPrefixOf s then
    let rest := s.drop 22
    let w := leadCount isSpacePy rest
    let after := rest.drop w
    if (fence ++ ("csv").data).isPrefixOf after then fencedTail (after.drop 6)
    else none
  else none

/-- `re.search` for the final-validated-CSV pattern. -/
def reFinalValidated (s : List Char) : Option (List Char) :=
  scanSuffixes matchFinalValidatedAt s

/-- The dictionary returned by `analyze_aws_service_security`. -/
structure AnalyzeResult where
  search_results : String
  selected_url_analysis : String
  extracted_url : String
  security_controls : String
  processed_controls : String
  validation_report : String
  final_csv : String
  aws_service : String
  search_query : String
  full_conversation : List String

/-- `analyze_aws_service_security(aws_service, search_query)`, with the
reasoning service abstracted by the content oracle. -/
def analyze_aws_service_security (aws_service : String) (search_query : Option String)
    (contentOf : Nat → String) : AnalyzeResult :=
  let msgs := analyzeMsgs aws_service search_query contentOf
  let o := collectOutputs msgs
  let extracted_url :=
    if o.selected_url = "" then ""
    else
      match reUrl o.selected_url.data with
      | some m => String.mk (pyStripChars m)
      | none => ""
  let final_csv :=
    if o.validation_report = "" then ""
    else
      match reFinalValidated o.validation_report.data with
      | some m => String.mk (pyStripChars m)
      | none => ""
  { search_results := o.search_results,
    selected_url_analysis := o.selected_url,
    extracted_url := extracted_url,
    security_controls := o.security_controls,
    processed_controls := o.processed_controls,
    validation_report := o.validation_report,
    final_csv := final_csv,
    aws_service := aws_service,
    search_query := effectiveQuery aws_service search_query,
    full_conversation := msgs.map (fun m => m.content) }

/-- The five pipeline stages. -/
inductive Stage
  | search
  | select
  | read
  | process
  | checkCsv

/-- The speaker label of a stage. -/
def speakerOf : Stage → String
  | .search => "DocumentSearchAgent"
  | .select => "URLSelectorAgent"
  | .read => "DocumentReaderAgent"
  | .process => "SecurityControlsProcessor"
  | .checkCsv => "CSVValidator"

/-- The required section header of a stage's output. -/
def headerOf : Stage → String
  | .search => "DOCUMENTATION SEARCH RESULTS"
  | .select => "URL SELECTION ANALYSIS"
  | .read => "AWS SECURITY CONTROLS ANALYSIS"
  | .process => "STRUCTURED SECURITY CONTROLS"
  | .checkCsv => "CSV VALIDATION REPORT"

/-- The collected output field of a stage. -/
def stageField : Stage → StageOutputs → String
  | .search => StageOutputs.search_results
  | .select => StageOutputs.selected_url
  | .read => StageOutputs.security_controls
  | .process => StageOutputs.processed_controls
  | .checkCsv => StageOutputs.validation_report

/-- The result-dictionary field holding a stage's raw output. -/
def resultField : Stage → AnalyzeResult → String
  | .search => AnalyzeResult.search_results
  | .select => AnalyzeResult.selected_url_analysis
  | .read => AnalyzeResult.security_controls
  | .process => AnalyzeResult.processed_controls
  | .checkCsv => AnalyzeResult.validation_report

theorem updateOutputs_skip (st : Stage) (acc : StageOutputs) (m : Msg)
    (h : ¬ m.source = speakerOf st) :
    stageField st (updateOutputs acc m) = stageField st acc := by
  cases st <;>
    (simp only [updateOutputs]
     split_ifs <;> simp_all [speakerOf, stageField])

theorem updateOutputs_noHeader (st : Stage) (acc : StageOutputs) (m : Msg)
    (hsrc : m.source = speakerOf st) (hhdr : pyIn (headerOf st) m.content = false) :
    updateOutputs acc m = acc := by
  cases st <;> simp_all [updateOutputs, speakerOf, headerOf]

theorem foldl_outputs_filter (st : Stage) :
    ∀ (msgs : List Msg) (acc : StageOutputs),
      (∀ m ∈ msgs, m.source = speakerOf st → pyIn (headerOf st) m.content = false) →
      msgs.foldl updateOutputs acc =
        (msgs.filter (fun m => ¬ m.source = speakerOf st)).foldl updateOutputs acc := by
  intro msgs
  induction msgs with
  | nil => intro acc _; rfl
  | cons m rest ih =>
    intro acc hall
    by_cases hsrc : m.source = speakerOf st
    · rw [List.foldl_cons,
        updateOutputs_noHeader st acc m hsrc (hall m (by simp) hsrc),
        List.filter_cons_of_neg (by simp [hsrc])]
      exact ih acc (fun x hx => hall x (by simp [hx]))
    · rw [List.foldl_cons, List.filter_cons_of_pos (by simp [hsrc]), List.foldl_cons]
      exact ih (updateOutputs acc m) (fun x hx => hall x (by simp [hx]))

theorem foldl_outputs_no_speaker (st : Stage) :
    ∀ (msgs : List Msg) (acc : StageOutputs),
      (∀ m ∈ msgs, ¬ m.source = speakerOf st) →
      stageField st (msgs.foldl updateOutputs acc) = stageField st acc := by
  intro msgs
  induction msgs with
  | nil => intro acc _; rfl
  | cons m rest ih =>
    intro acc hall
    rw [List.foldl_cons, ih (updateOutputs acc m) (fun x hx => hall x (by simp [hx])),
      updateOutputs_skip st acc m (hall m (by simp))]

/-- C7: when every contribution of a stage lacks that stage's required
section header, the returned result holds the empty string for that stage,
and every stage's result field is what the scan computes from the transcript
with the violating stage's messages removed - the run completes and the
other fields are unaffected. -/
theorem claim_C7 (aws_service : String) (search_query : Option String)
    (contentOf : Nat → String) (st : Stage)
    (h : ∀ m ∈ analyzeMsgs aws_service search_query contentOf,
      m.source = speakerOf st → pyIn (headerOf st) m.content = false) :
    resultField st (analyze_aws_service_security aws_service search_query contentOf) = "" ∧
    ∀ st2 : Stage,
      resultField st2 (analyze_aws_service_security aws_service search_query contentOf) =
        stageField st2 (collectOutputs
          ((analyzeMsgs aws_service search_query contentOf).filter
            (fun m => ¬ m.source = speakerOf st))) := by
  have hres : ∀ st2 : Stage,
      resultField st2 (analyze_aws_service_security aws_service search_query contentOf) =
        stageField st2 (collectOutputs (analyzeMsgs aws_service search_query contentOf)) := by
    intro st2
    cases st2 <;> rfl
  have hfil := foldl_outputs_filter st (analyzeMsgs aws_service search_query contentOf)
    (StageOutputs.mk "" "" "" "" "") h
  constructor
  · rw [hres st]
    unfold collectOutputs
    rw [hfil]
    rw [foldl_outputs_no_speaker st _ _ ?_]
    · cases st <;> rfl
    · intro m hm
      have := (List.mem_filter.1 hm).2
      simpa using this
  · intro st2
    rw [hres st2]
    unfold collectOutputs
    rw [hfil]

/-- C2: the conversation transcript is cut off purely by the message budget
of 10, which includes the initial task message: the speaker sequence is fixed
regardless of what any stage says, the first four stages contribute twice,
and the CSVValidator stage contributes only once - not the two contributions
per stage that the source's own comment (\"Allow 2 messages per agent\")
intends. -/
theorem claim_C2 (aws_service : String) (search_query : Option String)
    (contentOf : Nat → String) :
    (analyzeMsgs aws_service search_query contentOf).map Msg.source =
      ["user", "DocumentSearchAgent", "URLSelectorAgent", "DocumentReaderAgent",
       "SecurityControlsProcessor", "CSVValidator", "DocumentSearchAgent",
       "URLSelectorAgent", "DocumentReaderAgent", "SecurityControlsProcessor"] ∧
    (analyzeMsgs aws_service search_query contentOf).length = 10 ∧
    ((analyzeMsgs aws_service search_query contentOf).filter
      (fun m => m.source = "CSVValidator")).length = 1 := by
  refine ⟨rfl, rfl, rfl⟩

/-- C10: a `None` search query and an empty-string search query are treated
alike: the effective query is the template phrase, and the returned
dictionary's `search_query` field holds it. -/
theorem claim_C10 (aws_service : String) (contentOf : Nat → String) :
    (analyze_aws_service_security aws_service none contentOf).search_query =
        aws_service ++ " security controls best practices compliance" ∧
      (analyze_aws_service_security aws_service (some "") contentOf).search_query =
        aws_service ++ " security controls best practices compliance" := by
  exact ⟨rfl, rfl⟩

/-- A concrete run in which the SecurityControlsProcessor turn never emits
its required section header while every other stage does. -/
def wC7contents (i : Nat) : String :=
  ["# DOCUMENTATION SEARCH RESULTS\nresults here",
   "# URL SELECTION ANALYSIS\n**URL:** https://docs.aws/s3\nreason",
   "# AWS SECURITY CONTROLS ANALYSIS\ncontrols here",
   "free text without the expected section",
   "# CSV VALIDATION REPORT\nstatus"].getD i ""

theorem claim_C7_witness :
    resultField Stage.process
      (analyze_aws_service_security "S3" none wC7contents) = "" :=
  (claim_C7 "S3" none wC7contents Stage.process (by decide)).1

/-!
## `generate_compliance_report` master-CSV aggregation

`SecurityControlsExtractor.generate_compliance_report` builds
`master_csv_content` from the per-service analysis results: per service it
appends every non-blank line after the first of the stripped `final_csv`,
suffixed with a comma and the service name - for every non-errored service
with a non-empty `final_csv`, whether or not `csv_validation` passed.
-/

/-- The per-service entry of `all_controls`: either the error marker dict or
a results dict carrying `final_csv` and the optional `csv_validation`
report. -/
inductive ServiceData
  | err (msg : String)
  | ok (final_csv : String) (csv_validation : Option ValidationResults)

/-- The fixed master-CSV header line. -/
def masterHeader : String :=
  "controlId,controlName,severity,policies,awsConfig,implementation,relatedRequirements,awsService\n"

/-- One iteration of the service loop, appending to `master_csv_content`
(source lines 140-168, master-CSV part). -/
def masterStep (acc : String) (sd : String × ServiceData) : String :=
  match sd.2 with
  | .err _ => acc
  | .ok final_csv _ =>
    if final_csv = "" then acc
    else
      let csv_lines := pySplitNl (pyStrip final_csv)
      if 1 < csv_lines.length then
        (csv_lines.drop 1).foldl
          (fun acc2 line =>
            if pyStrip line = "" then acc2
            else acc2 ++ line ++ "," ++ sd.1 ++ "\n") acc
      else acc

/-- The `master_csv_content` string built by `generate_compliance_report`. -/
def generate_compliance_report_master (all_controls : List (String × ServiceData)) :
    String :=
  all_controls.foldl masterStep masterHeader

/-- The master-dataset rows a single service contributes: nothing for an
errored or `final_csv`-less service, otherwise each non-blank data line of
the stripped `final_csv` with the service appended as a trailing column. -/
def serviceRows (service : String) (d : ServiceData) : List String :=
  match d with
  | .err _ => []
  | .ok final_csv _ =>
    if final_csv = "" then []
    else
      let csv_lines := pySplitNl (pyStrip final_csv)
      if 1 < csv_lines.length then
        (csv_lines.drop 1).filterMap
          (fun line => if pyStrip line = "" then none else some (line ++ "," ++ service))
      else []

/-- All master-dataset rows of a batch, in batch order. -/
def masterRows (all_controls : List (String × ServiceData)) : List String :=
  (all_controls.map (fun sd => serviceRows sd.1 sd.2)).flatten

theorem string_foldl_append (l : List String) :
    ∀ a : String, l.foldl (fun r s => r ++ s) a = a ++ l.foldl (fun r s => r ++ s) "" := by
  induction l with
  | nil => intro a; simp
  | cons x xs ih =>
    intro a
    rw [List.foldl_cons, List.foldl_cons, ih (a ++ x), ih ("" ++ x)]
    simp [String.append_assoc]

theorem string_join_cons (x : String) (l : List String) :
    String.join (x :: l) = x ++ String.join l := by
  simp only [String.join, List.foldl_cons]
  rw [string_foldl_append]
  simp

theorem string_join_append (l m : List String) :
    String.join (l ++ m) = String.join l ++ String.join m := by
  induction l with
  | nil => simp [String.join]
  | cons x xs ih =>
    rw [List.cons_append, string_join_cons, string_join_cons, ih, String.append_assoc]

theorem lines_foldl_rows (service : String) :
    ∀ (lines : List String) (acc : String),
      lines.foldl
          (fun acc2 line =>
            if pyStrip line = "" then acc2
            else acc2 ++ line ++ "," ++ service ++ "\n") acc =
        acc ++ String.join ((lines.filterMap
          (fun line => if pyStrip line = "" then none
            else some (line ++ "," ++ service))).map (fun r => r ++ "\n")) := by
  intro lines
  induction lines with
  | nil => intro acc; simp [String.join]
  | cons line rest ih =>
    intro acc
    rw [List.foldl_cons, List.filterMap_cons]
    by_cases hb : pyStrip line = ""
    · simp only [hb, if_pos rfl]
      exact ih acc
    · simp only [if_neg hb]
      rw [ih (acc ++ line ++ "," ++ service ++ "\n")]
      rw [List.map_cons, string_join_cons]
      simp [String.append_assoc]

theorem masterStep_rows (acc : String) (sd : String × ServiceData) :
    masterStep acc sd = acc ++ String.join ((serviceRows sd.1 sd.2).map (fun r => r ++ "\n")) := by
  obtain ⟨service, d⟩ := sd
  cases d with
  | err m => simp [masterStep, serviceRows, String.join]
  | ok final_csv v =>
    simp only [masterStep, serviceRows]
    by_cases h0 : final_csv = ""
    · simp [h0, String.join]
    · simp only [if_neg h0]
      by_cases h1 : 1 < (pySplitNl (pyStrip final_csv)).length
      · simp only [if_pos h1]
        exact lines_foldl_rows service _ acc
      · simp [if_neg h1, String.join]

theorem master_foldl_rows :
    ∀ (all_controls : List (String × ServiceData)) (acc : String),
      all_controls.foldl masterStep acc =
        acc ++ String.join ((masterRows all_controls).map (fun r => r ++ "\n")) := by
  intro all_controls
  induction all_controls with
  | nil => intro acc; simp [masterRows, String.join]
  | cons sd rest ih =>
    intro acc
    rw [List.foldl_cons, masterStep_rows acc sd, ih]
    simp only [masterRows, List.map_cons, List.flatten_cons, List.map_append,
      string_join_append]
    rw [String.append_assoc]

/-- C1 (amended): the master CSV is the header followed by, for every
non-errored subject with a non-empty `final_csv`, each non-blank data line of
its table with the subject identifier appended as a trailing column -
regardless of whether the table passed schema validation; the master row
count is the sum of the rows contributed per subject. -/
theorem claim_C1_amended (all_controls : List (String × ServiceData)) :
    generate_compliance_report_master all_controls =
      masterHeader ++ String.join ((masterRows all_controls).map (fun r => r ++ "\n")) ∧
    (masterRows all_controls).length =
      ((all_controls.map (fun sd => (serviceRows sd.1 sd.2).length)).sum) := by
  constructor
  · exact master_foldl_rows all_controls masterHeader
  · simp only [masterRows, List.length_flatten, List.map_map]
    rfl

/-- A table that fails schema validation (empty controlName). -/
def invalidCsvC1 : String := validHeaderLine ++ "\nA-1,,High,p,c,i,r"

/-- C1 counterexample: a subject whose table fails schema validation still
contributes its rows to the master dataset, so the master is not restricted
to validated rows and its row count exceeds the sum of validated rows
(zero here). -/
theorem claim_C1_counterexample :
    (validate_csv_format invalidCsvC1).is_valid = false ∧
    generate_compliance_report_master
        [("S3", ServiceData.ok invalidCsvC1 (some (validate_csv_format invalidCsvC1)))] =
      masterHeader ++ "A-1,,High,p,c,i,r,S3\n" := by
  constructor
  · decide
  · decide

end AwsDoc
